import Mathlib

/-!
Verification of the structural flattening and schema-inference engine of
`json_converter.py` (JSON-to-Table converter).

The Python functions `detect_field_pattern`, `analyze_field_statistics`,
`generate_schema`, `json_to_dataframe` and the external helper
`flatten_json.flatten` are shallowly embedded as executable Lean functions
over an inductive type of JSON values.  Python-specific semantics that the
source relies on are modelled explicitly:

* a Python `bool` is an instance of `int`, so `isinstance(value, (int, float))`
  is `True` for booleans (this makes the later `isinstance(value, bool)`
  branch of `detect_field_pattern` unreachable);
* `dict.get(key)` yields `None` for a missing key;
* a set's iteration order is unspecified: every place the source iterates a
  `set` is parametrised by an order-choosing function `ord` that permutes the
  canonical (first-encounter) ordering;
* Python floats are modelled as rationals (ℚ); the float arithmetic the
  source performs (`null_rate`, averages) involves only small ratios, where
  IEEE rounding cannot flip the comparisons against `0.5` made by the code;
* the regex character class `\d` is modelled as the ASCII digits `0-9`
  (Python's `\d` also accepts non-ASCII Unicode digits), and `$` is modelled
  with Python semantics: it also matches just before one trailing newline.
-/

/-- A parsed JSON value (the input type of the converter's core functions). -/
inductive JSON where
  | null : JSON
  | bool (b : Bool) : JSON
  | int (n : Int) : JSON
  | float (q : ℚ) : JSON
  | str (s : String) : JSON
  | arr (items : List JSON) : JSON
  | obj (fields : List (String × JSON)) : JSON
deriving Repr

mutual

def JSON.beq : JSON → JSON → Bool
  | .null, .null => true
  | .bool a, .bool b => a == b
  | .int a, .int b => a == b
  | .float a, .float b => a == b
  | .str a, .str b => a == b
  | .arr a, .arr b => JSON.beqList a b
  | .obj a, .obj b => JSON.beqFields a b
  | _, _ => false

def JSON.beqList : List JSON → List JSON → Bool
  | [], [] => true
  | a :: as, b :: bs => JSON.beq a b && JSON.beqList as bs
  | _, _ => false

def JSON.beqFields : List (String × JSON) → List (String × JSON) → Bool
  | [], [] => true
  | (k, v) :: as, (k', v') :: bs => k == k' && JSON.beq v v' && JSON.beqFields as bs
  | _, _ => false

end

mutual

theorem JSON.beq_iff : ∀ a b : JSON, JSON.beq a b = true ↔ a = b
  | .null, b => by cases b <;> simp [JSON.beq]
  | .bool a, b => by cases b <;> simp [JSON.beq]
  | .int a, b => by cases b <;> simp [JSON.beq]
  | .float a, b => by cases b <;> simp [JSON.beq]
  | .str a, b => by cases b <;> simp [JSON.beq]
  | .arr a, b => by
      cases b <;> simp [JSON.beq]
      case arr b => exact JSON.beqList_iff a b
  | .obj a, b => by
      cases b <;> simp [JSON.beq]
      case obj b => exact JSON.beqFields_iff a b

theorem JSON.beqList_iff : ∀ a b : List JSON, JSON.beqList a b = true ↔ a = b
  | [], [] => by simp [JSON.beqList]
  | a :: as, b :: bs => by
      simp [JSON.beqList, JSON.beq_iff a b, JSON.beqList_iff as bs]
  | [], _ :: _ => by simp [JSON.beqList]
  | _ :: _, [] => by simp [JSON.beqList]

theorem JSON.beqFields_iff : ∀ a b : List (String × JSON), JSON.beqFields a b = true ↔ a = b
  | [], [] => by simp [JSON.beqFields]
  | (k, v) :: as, (k', v') :: bs => by
      simp [JSON.beqFields, JSON.beq_iff v v', JSON.beqFields_iff as bs, and_assoc]
  | [], _ :: _ => by simp [JSON.beqFields]
  | _ :: _, [] => by simp [JSON.beqFields]

end

instance : DecidableEq JSON := fun a b => decidable_of_iff _ (JSON.beq_iff a b)

/-- `value is None` in Python. -/
def JSON.isNull : JSON → Bool
  | .null => true
  | _ => false

/-- `isinstance(value, dict)` in Python. -/
def JSON.isObj : JSON → Bool
  | .obj _ => true
  | _ => false

/-- A value that is neither a `dict` nor a `list`: the "simple value" cases of
the source's type dispatches (`None`, `bool`, `int`, `float`, `str`). -/
def JSON.isScalar : JSON → Bool
  | .arr _ => false
  | .obj _ => false
  | _ => true

/-- The key/value pairs of an object; `[]` on non-objects (never used there). -/
def fieldsOf : JSON → List (String × JSON)
  | .obj fields => fields
  | _ => []

/-- First-match association-list lookup: `dict[key]` / `dict.get(key)` for the
unique-key lists that model Python dicts. -/
def lookupKey : List (String × JSON) → String → Option JSON
  | [], _ => none
  | (k, v) :: rest, key => if k = key then some v else lookupKey rest key

theorem JSON.isNull_iff (v : JSON) : v.isNull = true ↔ v = .null := by
  cases v <;> simp [JSON.isNull]

theorem JSON.isNull_eq_false_iff (v : JSON) : v.isNull = false ↔ v ≠ .null := by
  cases v <;> simp [JSON.isNull]

/-! ### Python runtime helpers used by the source

`type(v).__name__`, `str(v)` and truthiness, as they apply to parsed JSON
values. -/

/-- `type(value).__name__` for a parsed JSON value. -/
def pyTypeName : JSON → String
  | .null => "NoneType"
  | .bool _ => "bool"
  | .int _ => "int"
  | .float _ => "float"
  | .str _ => "str"
  | .arr _ => "list"
  | .obj _ => "dict"

/-- Decimal rendering of a rational used for `repr` of a Python float.
Finite decimal expansions are rendered exactly; floats whose shortest repr is
not a finite decimal of at most 17 fractional digits do not arise in the
claims and are rendered as `num/den` (an acknowledged approximation). -/
def floatRepr (q : ℚ) : String :=
  let sign := if q < 0 then "-" else ""
  let n := q.num.natAbs
  let d := q.den
  if d = 1 then sign ++ toString n ++ ".0"
  else
    let pow2 := (Nat.factorization d) 2
    let pow5 := (Nat.factorization d) 5
    if 2 ^ pow2 * 5 ^ pow5 = d then
      let k := max pow2 pow5
      let scaled := n * (10 ^ k / d)
      let digits := toString (scaled % 10 ^ k)
      let padded := String.mk (List.replicate (k - digits.length) '0') ++ digits
      sign ++ toString (scaled / 10 ^ k) ++ "." ++ padded
    else sign ++ toString n ++ "/" ++ toString d

mutual

/-- Python `repr` of a parsed JSON value (string escaping inside `repr` of a
`str` is approximated by plain single quotes; no claim depends on it). -/
def pyRepr : JSON → String
  | .null => "None"
  | .bool b => if b then "True" else "False"
  | .int n => toString n
  | .float q => floatRepr q
  | .str s => "'" ++ s ++ "'"
  | .arr items => "[" ++ pyReprList items ++ "]"
  | .obj fields => "\x7b" ++ pyReprFields fields ++ "\x7d"

def pyReprList : List JSON → String
  | [] => ""
  | [v] => pyRepr v
  | v :: rest => pyRepr v ++ ", " ++ pyReprList rest

def pyReprFields : List (String × JSON) → String
  | [] => ""
  | [(k, v)] => "'" ++ k ++ "': " ++ pyRepr v
  | (k, v) :: rest => "'" ++ k ++ "': " ++ pyRepr v ++ ", " ++ pyReprFields rest

end

/-- Python `str(value)`: identity on strings, `repr`-like elsewhere. -/
def pyStr : JSON → String
  | .str s => s
  | v => pyRepr v

/-! ### The regular expressions of `detect_field_pattern`

Each matcher implements `re.match(r'^...$', s)` for one of the five pattern
literals in the source.  `$` uses Python semantics (it also matches just
before a single trailing newline); `\d` and the explicit character classes
are the ASCII ranges. -/

/-- Wraps a whole-string matcher with Python's `$` semantics: the pattern may
also match the string minus one trailing newline. -/
def pyFullMatch (core : List Char → Bool) (s : String) : Bool :=
  core s.data || (s.data.getLast? == some '\n' && core s.data.dropLast)

/-- Consume between `lo` and `hi` digits greedily, returning the rest.
Greedy matching agrees with backtracking here because every use is followed
by a non-digit literal or the end of the pattern. -/
def takeDigits (lo hi : Nat) (cs : List Char) : Option (List Char) :=
  let p := cs.span Char.isDigit
  if lo ≤ p.1.length ∧ p.1.length ≤ hi then some p.2 else none

/-- Consume one expected literal character. -/
def expectChar (c : Char) : List Char → Option (List Char)
  | x :: rest => if x = c then some rest else none
  | [] => none

/-- Core of `^\d\x7b1,2\x7d/\d\x7b1,2\x7d/\d\x7b4\x7d \d\x7b1,2\x7d:\d\x7b2\x7d:\d\x7b2\x7d$`. -/
def datetimeCore (cs : List Char) : Bool :=
  (do
    let r ← takeDigits 1 2 cs
    let r ← expectChar '/' r
    let r ← takeDigits 1 2 r
    let r ← expectChar '/' r
    let r ← takeDigits 4 4 r
    let r ← expectChar ' ' r
    let r ← takeDigits 1 2 r
    let r ← expectChar ':' r
    let r ← takeDigits 2 2 r
    let r ← expectChar ':' r
    let r ← takeDigits 2 2 r
    if r.isEmpty then some () else none).isSome

/-- Core of `^\d\x7b1,2\x7d/\d\x7b1,2\x7d/\d\x7b4\x7d$`. -/
def dateCore (cs : List Char) : Bool :=
  (do
    let r ← takeDigits 1 2 cs
    let r ← expectChar '/' r
    let r ← takeDigits 1 2 r
    let r ← expectChar '/' r
    let r ← takeDigits 4 4 r
    if r.isEmpty then some () else none).isSome

/-- The class `[a-zA-Z0-9._%+-]` (email local part). -/
def isLocalChar (c : Char) : Bool :=
  c.isAlpha || c.isDigit || c = '.' || c = '_' || c = '%' || c = '+' || c = '-'

/-- The class `[a-zA-Z0-9.-]` (email domain labels). -/
def isDomainChar (c : Char) : Bool :=
  c.isAlpha || c.isDigit || c = '.' || c = '-'

/-- `[a-zA-Z]\x7b2,\x7d` up to the end of input. -/
def tldOk (cs : List Char) : Bool :=
  2 ≤ cs.length && cs.all Char.isAlpha

/-- After at least one domain character: the rest of
`[a-zA-Z0-9.-]+\.[a-zA-Z]\x7b2,\x7d` — either the separating dot followed by
the final letters, or one more domain character and recursion.  This tries
every admissible position of the separating dot, i.e. full backtracking. -/
def emailRest : List Char → Bool
  | [] => false
  | c :: rest => (c = '.' && tldOk rest) || (isDomainChar c && emailRest rest)

/-- Core of `^[a-zA-Z0-9._%+-]+@[a-zA-Z0-9.-]+\.[a-zA-Z]\x7b2,\x7d$`.
The `@` belongs to neither character class, so the local part extends exactly
to the first `@`. -/
def emailCore (cs : List Char) : Bool :=
  let p := cs.span (· ≠ '@')
  match p.2 with
  | '@' :: dom =>
      (!p.1.isEmpty) && p.1.all isLocalChar &&
        (match dom with
         | [] => false
         | c :: rest => isDomainChar c && emailRest rest)
  | _ => false

/-- The class `[A-Z0-9_-]` (identifier/key pattern). -/
def isIdentChar (c : Char) : Bool :=
  c.isUpper || c.isDigit || c = '_' || c = '-'

/-- Core of `^[A-Z0-9_-]+$`. -/
def identCore (cs : List Char) : Bool :=
  (!cs.isEmpty) && cs.all isIdentChar

/-- Core of `^[0-9]+$`. -/
def numericCore (cs : List Char) : Bool :=
  (!cs.isEmpty) && cs.all Char.isDigit

def matchDatetime (s : String) : Bool := pyFullMatch datetimeCore s
def matchDate (s : String) : Bool := pyFullMatch dateCore s
def matchEmail (s : String) : Bool := pyFullMatch emailCore s
def matchIdentifier (s : String) : Bool := pyFullMatch identCore s
def matchNumericString (s : String) : Bool := pyFullMatch numericCore s

/-! ### `detect_field_pattern` (json_converter.py lines 297-393) -/

/-- The dict returned by `detect_field_pattern`: the keys `type`,
`format`, `pattern`, `description`, `example` (absent keys are `none`).
The same shape also models the bare `\x7b"type": "string"\x7d` item fallback. -/
structure PatternInfo where
  type : String
  format : Option String := none
  pattern : Option String := none
  description : Option String := none
  «example» : Option JSON := none
deriving Repr, DecidableEq

/-- The regex source literals stored in the returned dicts. -/
def datetimePatternLit : String := "^\\d\x7b1,2\x7d/\\d\x7b1,2\x7d/\\d\x7b4\x7d \\d\x7b1,2\x7d:\\d\x7b2\x7d:\\d\x7b2\x7d$"

def datePatternLit : String := "^\\d\x7b1,2\x7d/\\d\x7b1,2\x7d/\\d\x7b4\x7d$"

def emailPatternLit : String := "^[a-zA-Z0-9._%+-]+@[a-zA-Z0-9.-]+\\.[a-zA-Z]\x7b2,\x7d$"

def identPatternLit : String := "^[A-Z0-9_-]+$"

def numericPatternLit : String := "^[0-9]+$"

/-- `detect_field_pattern(value)`.  Branch order follows the source exactly:
`None`, then the string ladder (datetime, date, email, identifier, numeric
string, empty string, general text with 50-character truncation), then
`isinstance(value, (int, float))` — which in Python also captures booleans,
making the subsequent `isinstance(value, bool)` branch unreachable — and the
generic fallback for anything else. -/
def detect_field_pattern : JSON → PatternInfo
  | .null => { type := "null", description := some "Null value" }
  | .str s =>
      if matchDatetime s then
        { type := "string", format := some "datetime", pattern := some datetimePatternLit,
          description := some "Date and time in MM/DD/YYYY HH:MM:SS format",
          «example» := some (.str s) }
      else if matchDate s then
        { type := "string", format := some "date", pattern := some datePatternLit,
          description := some "Date in MM/DD/YYYY format", «example» := some (.str s) }
      else if matchEmail s then
        { type := "string", format := some "email", pattern := some emailPatternLit,
          description := some "Email address", «example» := some (.str s) }
      else if matchIdentifier s then
        { type := "string", pattern := some identPatternLit,
          description := some "Identifier or key", «example» := some (.str s) }
      else if matchNumericString s then
        { type := "string", pattern := some numericPatternLit,
          description := some "Numeric string", «example» := some (.str s) }
      else if s = "" then
        { type := "string", description := some "Empty string", «example» := some (.str "") }
      else
        { type := "string", description := some "Text string",
          «example» := some (.str (if 50 < s.length then s.take 50 ++ "..." else s)) }
  | .bool b =>
      -- `isinstance(True, int)` holds in Python, so booleans take the
      -- integer branch; the source's dedicated boolean branch is dead code.
      { type := "integer", description := some "Integer number", «example» := some (.bool b) }
  | .int n => { type := "integer", description := some "Integer number", «example» := some (.int n) }
  | .float q => { type := "number", description := some "Decimal number", «example» := some (.float q) }
  | .arr items =>
      { type := "list", description := some "list value", «example» := some (.str (pyStr (.arr items))) }
  | .obj fields =>
      { type := "dict", description := some "dict value", «example» := some (.str (pyStr (.obj fields))) }

/-! ### `analyze_field_statistics` (json_converter.py lines 395-436) -/

/-- Deduplicate keeping the first occurrence of each element: the canonical
(insertion-order) enumeration of the distinct elements of a list, used to
model `set(...)` and `Counter` key enumeration. -/
def dedupFirst : List String → List String
  | [] => []
  | a :: rest => a :: dedupFirst (rest.filter (· ≠ a))
termination_by l => l.length
decreasing_by
  exact Nat.lt_succ_of_le (List.length_filter_le _ _)

/-- Numeric magnitude of a value satisfying `isinstance(v, (int, float))`
(booleans included: `True == 1`, `False == 0`). -/
def ratOfNum : JSON → ℚ
  | .bool b => if b then 1 else 0
  | .int n => (n : ℚ)
  | .float q => q
  | _ => 0

/-- `isinstance(v, (int, float))` — true for Python bools as well. -/
def JSON.isNum : JSON → Bool
  | .bool _ => true
  | .int _ => true
  | .float _ => true
  | _ => false

/-- `isinstance(v, str)`. -/
def JSON.isStr : JSON → Bool
  | .str _ => true
  | _ => false

/-- The string payload of a `.str` value. -/
def strVal : JSON → String
  | .str s => s
  | _ => ""

/-- Python `min(values)`: keeps the first element that is strictly smaller
than everything before it. -/
def pyMin (l : List JSON) : Option JSON :=
  match l with
  | [] => none
  | h :: t => some (t.foldl (fun m v => if ratOfNum v < ratOfNum m then v else m) h)

/-- Python `max(values)`: keeps the first element that is strictly larger
than everything before it. -/
def pyMax (l : List JSON) : Option JSON :=
  match l with
  | [] => none
  | h :: t => some (t.foldl (fun m v => if ratOfNum m < ratOfNum v then v else m) h)

/-- `min` over a non-empty list of naturals (string lengths). -/
def natMin (l : List Nat) : Option Nat :=
  match l with
  | [] => none
  | h :: t => some (t.foldl Nat.min h)

/-- `max` over a non-empty list of naturals (string lengths). -/
def natMax (l : List Nat) : Option Nat :=
  match l with
  | [] => none
  | h :: t => some (t.foldl Nat.max h)

/-- `Counter(values).most_common(3)`: pairs `(value, count)` keyed in
first-encounter order, stably sorted by descending count, first three. -/
def most_common3 (l : List String) : List (String × Nat) :=
  (((dedupFirst l).map (fun s => (s, l.count s))).mergeSort
    (fun a b => b.2 ≤ a.2)).take 3

/-- The dict built by `analyze_field_statistics` (absent keys are `none`). -/
structure Stats where
  total_count : Nat
  null_count : Nat
  null_rate : ℚ
  types : Option (List String) := none
  min : Option JSON := none
  max : Option JSON := none
  avg : Option ℚ := none
  min_length : Option Nat := none
  max_length : Option Nat := none
  avg_length : Option ℚ := none
  unique_count : Option Nat := none
  uniqueness_rate : Option ℚ := none
  most_common : Option (List (String × Nat)) := none
deriving Repr, DecidableEq

/-- `analyze_field_statistics(values)`, parametrised by the iteration order
`ord` chosen for the `set` of observed type names (`none` models the empty
dict returned for an empty input list). -/
def analyze_field_statisticsWith (ord : List String → List String)
    (values : List JSON) : Option Stats :=
  if values.isEmpty then none
  else
    let non_null := values.filter (fun v => !v.isNull)
    let base : Stats :=
      { total_count := values.length,
        null_count := values.length - non_null.length,
        null_rate := ((values.length - non_null.length : ℕ) : ℚ) / (values.length : ℚ) }
    if non_null.isEmpty then some base
    else
      let withTypes := { base with types := some (ord (dedupFirst (non_null.map pyTypeName))) }
      let withNum :=
        if non_null.all JSON.isNum then
          { withTypes with
            min := pyMin non_null, max := pyMax non_null,
            avg := (non_null.map ratOfNum).sum / (non_null.length : ℚ) }
        else withTypes
      if non_null.all JSON.isStr then
        let strs := non_null.map strVal
        some { withNum with
               min_length := natMin (strs.map String.length),
               max_length := natMax (strs.map String.length),
               avg_length := ((strs.map String.length).sum : ℚ) / (non_null.length : ℚ),
               unique_count := some (dedupFirst strs).length,
               uniqueness_rate := ((dedupFirst strs).length : ℚ) / (non_null.length : ℚ),
               most_common := some (most_common3 strs) }
      else some withNum

/-- `analyze_field_statistics` with the canonical set order. -/
def analyze_field_statistics (values : List JSON) : Option Stats :=
  analyze_field_statisticsWith id values

/-- `stats.get("null_rate", 0)` — the value the required-field test reads. -/
def nullRateOf : Option Stats → ℚ
  | none => 0
  | some s => s.null_rate

/-! ### Schema nodes (the dicts returned by `generate_schema`) -/

/-- The recursive schema tree `generate_schema` returns.

* `leaf p st` — a `detect_field_pattern` dict, with the optional extra
  `statistics` key (`st`);
* `emptySchema` — the literal empty dict `\x7b\x7d` used as `items` of the
  empty-array marker;
* `sobj props req` — `\x7b"type": "object", "properties": props,
  "required": req\x7d`;
* `sarr desc items` — `\x7b"type": "array", "description": desc,
  "items": items\x7d`. -/
inductive Schema where
  | leaf (info : PatternInfo) (stats : Option Stats) : Schema
  | emptySchema : Schema
  | sobj (properties : List (String × Schema)) (required : List String) : Schema
  | sarr (description : String) (items : Schema) : Schema
deriving Repr

mutual

def Schema.beq : Schema → Schema → Bool
  | .leaf p st, .leaf p' st' => p == p' && st == st'
  | .emptySchema, .emptySchema => true
  | .sobj props req, .sobj props' req' => Schema.beqProps props props' && req == req'
  | .sarr d it, .sarr d' it' => d == d' && Schema.beq it it'
  | _, _ => false

def Schema.beqProps : List (String × Schema) → List (String × Schema) → Bool
  | [], [] => true
  | (k, s) :: as, (k', s') :: bs => k == k' && Schema.beq s s' && Schema.beqProps as bs
  | _, _ => false

end

mutual

theorem Schema.schemaBeq_iff : ∀ a b : Schema, Schema.beq a b = true ↔ a = b
  | .leaf p st, b => by cases b <;> simp [Schema.beq]
  | .emptySchema, b => by cases b <;> simp [Schema.beq]
  | .sobj props req, b => by
      cases b <;> simp [Schema.beq]
      case sobj props' req' =>
        intro _
        exact Schema.beqProps_iff props props'
  | .sarr d it, b => by
      cases b <;> simp [Schema.beq]
      case sarr d' it' =>
        intro _
        exact Schema.schemaBeq_iff it it'

theorem Schema.beqProps_iff : ∀ a b : List (String × Schema), Schema.beqProps a b = true ↔ a = b
  | [], [] => by simp [Schema.beqProps]
  | (k, s) :: as, (k', s') :: bs => by
      simp [Schema.beqProps, Schema.schemaBeq_iff s s', Schema.beqProps_iff as bs, and_assoc]
  | [], _ :: _ => by simp [Schema.beqProps]
  | _ :: _, [] => by simp [Schema.beqProps]

end

instance : DecidableEq Schema := fun a b => decidable_of_iff _ (Schema.schemaBeq_iff a b)

/-! ### `generate_schema` (json_converter.py lines 438-518)

The source's `field_name` parameter is threaded through recursive calls but
never read, so it is omitted.  Iteration of the `all_keys` set (line 469) and
of the type-name set inside `analyze_field_statistics` is parametrised by
`ord`; `generate_schema` itself uses the canonical first-encounter order. -/

/-- `[item.get(key) for item in data]` (line 475): the values of field `k`
across all array elements, `null` where the key is missing. -/
def fieldValues (k : String) (items : List JSON) : List JSON :=
  items.map (fun it => (lookupKey (fieldsOf it) k).getD JSON.null)

/-- `next((v for v in field_values if v is not None), None)` (line 479). -/
def sampleValue (k : String) (items : List JSON) : Option JSON :=
  (fieldValues k items).find? (fun v => !v.isNull)

/-- The union of all keys across the array's objects (lines 469-471), in
first-encounter order (the `set` is iterated through `ord` at the use site). -/
def allKeys (items : List JSON) : List String :=
  dedupFirst (items.flatMap (fun it => (fieldsOf it).map Prod.fst))

/-- One entry of the merged schema's `properties` (lines 478-488): present
iff some element has a non-null value for `k`; the pattern of the first
non-null sample, plus the field statistics when `detailed` is set. -/
def mergedProp (ord : List String → List String) (detailed : Bool)
    (items : List JSON) (k : String) : Option (String × Schema) :=
  match sampleValue k items with
  | none => none
  | some sample =>
      some (k, .leaf (detect_field_pattern sample)
        (if detailed then analyze_field_statisticsWith ord (fieldValues k items) else none))

/-- The merged schema's required-field test (lines 490-492): a non-null
sample exists and `field_stats.get("null_rate", 0) < 0.5`. -/
def requiredPred (ord : List String → List String) (items : List JSON) (k : String) : Bool :=
  (sampleValue k items).isSome &&
    decide (nullRateOf (analyze_field_statisticsWith ord (fieldValues k items)) < (1 : ℚ) / 2)

mutual

/-- `generate_schema(data, detailed)`, with the set-iteration order `ord`
made explicit. -/
def generate_schemaWith (ord : List String → List String) : JSON → Bool → Schema
  | .obj fields, detailed =>
      -- lines 440-453: one property per key with a non-null value; every
      -- such key is also marked required.
      .sobj (gsFieldsWith ord fields detailed)
        (fields.filterMap (fun kv => if kv.2.isNull then none else some kv.1))
  | .arr items, detailed =>
      if items.isEmpty then
        -- lines 456-461: the empty-array marker.
        .sarr "Empty array" .emptySchema
      else if items.all JSON.isObj then
        -- lines 464-498: merge the schemas of an array of objects.
        .sarr ("Array of " ++ toString items.length ++ " objects")
          (.sobj ((ord (allKeys items)).filterMap (mergedProp ord detailed items))
            ((ord (allKeys items)).filter (requiredPred ord items)))
      else
        -- lines 499-514: array of simple values.
        match items.head? with
        | some sample =>
            if sample.isNull then
              .sarr "Array of items" (.leaf { type := "string" } none)
            else
              .sarr ("Array of " ++ toString items.length ++ " items")
                (.leaf (detect_field_pattern sample) none)
        | none => .sarr "Array of items" (.leaf { type := "string" } none)
  | v, _detailed =>
      -- lines 516-518: simple value.
      .leaf (detect_field_pattern v) none

/-- The `properties` dict of the plain-object branch (lines 447-451). -/
def gsFieldsWith (ord : List String → List String) :
    List (String × JSON) → Bool → List (String × Schema)
  | [], _ => []
  | (k, v) :: rest, detailed =>
      if v.isNull then gsFieldsWith ord rest detailed
      else (k, generate_schemaWith ord v detailed) :: gsFieldsWith ord rest detailed

end

/-- `generate_schema(data, detailed=detailed)` with the canonical set order. -/
def generate_schema (data : JSON) (detailed : Bool) : Schema :=
  generate_schemaWith id data detailed

/-- The `required` list of an object schema node. -/
def Schema.requiredOf : Schema → List String
  | .sobj _ req => req
  | _ => []

/-- The keys of the `properties` dict of an object schema node. -/
def Schema.propKeys : Schema → List String
  | .sobj props _ => props.map Prod.fst
  | _ => []

/-- The `items` entry of an array schema node. -/
def Schema.itemsOf : Schema → Option Schema
  | .sarr _ items => some items
  | _ => none

/-! ### `flatten_json.flatten` (external library, called at lines 152 and 160)

The library's `flatten(nested_dict, separator="_")`:

* an empty (falsy) value is stored at the current key as-is;
* a dict is iterated, extending the key path with the separator;
* a list is iterated with the indices as path segments;
* anything else is stored at the current key;

with `_construct_key` joining a truthy previous key and the new segment. -/

/-- `_construct_key(previous_key, separator, new_key)`: the empty string
plays the role of the falsy `None`/`""` previous key. -/
def construct_key (previous sep new : String) : String :=
  if previous ≠ "" then previous ++ sep ++ new else new

/-- Python truthiness test `not object_` on a parsed JSON value. -/
def JSON.isFalsy : JSON → Bool
  | .null => true
  | .bool b => !b
  | .int n => n == 0
  | .float q => q == 0
  | .str s => s == ""
  | .arr items => items.isEmpty
  | .obj fields => fields.isEmpty

/-- `flattened_dict[key] = value`: Python dict assignment keeps the original
insertion position when the key already exists, else appends. -/
def dictInsert (d : List (String × JSON)) (k : String) (v : JSON) : List (String × JSON) :=
  if d.any (fun kv => kv.1 = k) then d.map (fun kv => if kv.1 = k then (k, v) else kv)
  else d ++ [(k, v)]

mutual

/-- The inner `_flatten(object_, key)` accumulating into `flattened_dict`.
For scalars the falsy and the catch-all branches of the library coincide
(store as-is), so only empty dicts/lists need the explicit falsy test. -/
def flattenAux : JSON → String → List (String × JSON) → List (String × JSON)
  | .obj fields, key, acc =>
      if fields.isEmpty then dictInsert acc key (.obj fields)
      else flattenFields fields key acc
  | .arr items, key, acc =>
      if items.isEmpty then dictInsert acc key (.arr items)
      else flattenItems items 0 key acc
  | v, key, acc => dictInsert acc key v

def flattenFields : List (String × JSON) → String → List (String × JSON) → List (String × JSON)
  | [], _, acc => acc
  | (k, v) :: rest, key, acc =>
      flattenFields rest key (flattenAux v (construct_key key "_" k) acc)

def flattenItems : List JSON → Nat → String → List (String × JSON) → List (String × JSON)
  | [], _, _, acc => acc
  | v :: rest, i, key, acc =>
      flattenItems rest (i + 1) key (flattenAux v (construct_key key "_" (toString i)) acc)

end

/-- `flatten_json.flatten(nested_dict)`: empty dicts short-circuit to the
empty dict; otherwise the top-level call starts with the falsy key `None`
(modelled as `""`). -/
def flatten (fields : List (String × JSON)) : List (String × JSON) :=
  if fields.isEmpty then [] else flattenFields fields "" []

/-! ### `json_to_dataframe` (json_converter.py lines 139-171)

The result is modelled at the row-set level of the specification's data
model: an ordered list of rows, each an ordered mapping from column name to
value (`pd.DataFrame` construction aligns the union of the keys, treating
missing ones as absent). -/

/-- One row of the tabular result. -/
abbrev Row := List (String × JSON)

/-- `json_to_dataframe(data)` as a row-set. -/
def json_to_dataframe : JSON → List Row
  | .arr items =>
      if items.isEmpty then []
      else if items.all JSON.isObj then
        -- lines 148-153: one flattened row per object element.
        items.map (fun it => flatten (fieldsOf it))
      else
        -- lines 154-156: `pd.DataFrame(data, columns=["Value"])`.
        items.map (fun v => [("Value", v)])
  | .obj fields =>
      -- lines 158-167.
      if (flatten fields).length = fields.length then [fields]
      else [flatten fields]
  | v =>
      -- lines 169-171.
      [[("Value", v)]]

/-! ### Test vectors from the specification

Named regression checks for the embedding: the classification examples of
the specification's testable-properties section, and a check of the
flattening conventions (separator `_`, list indices as path segments, empty
containers kept as values). -/

theorem flatten_test_vectors :
    flatten [("a", .obj [("b", .int 1), ("c", .int 2)])] =
      [("a_b", .int 1), ("a_c", .int 2)] ∧
    flatten [("a", .arr [.int 1, .str "x"])] =
      [("a_0", .int 1), ("a_1", .str "x")] ∧
    flatten [("a", .obj [])] = [("a", .obj [])] := by
  refine ⟨by decide, by decide, by decide⟩

theorem detect_field_pattern_test_vectors :
    (detect_field_pattern (.str "11/18/2022 14:37:31")).format = some "datetime" ∧
    (detect_field_pattern (.str "11/18/2022")).format = some "date" ∧
    (detect_field_pattern (.str "a@b.co")).format = some "email" ∧
    (detect_field_pattern (.str "ML3PL-PP129")).description = some "Identifier or key" ∧
    (detect_field_pattern (.str "")).description = some "Empty string" ∧
    (detect_field_pattern (.int 202)).type = "integer" := by
  refine ⟨by decide, by decide, by decide, by decide, by decide, by decide⟩

/-! ### Supporting lemmas -/

/-- The keys of the plain-object branch's properties dict are exactly the
keys whose values are non-null, in order. -/
theorem gsFieldsWith_keys (ord : List String → List String)
    (fields : List (String × JSON)) (d : Bool) :
    (gsFieldsWith ord fields d).map Prod.fst =
      fields.filterMap (fun kv => if kv.2.isNull then none else some kv.1) := by
  induction fields with
  | nil => rfl
  | cons kv rest ih =>
      by_cases hv : kv.2.isNull
      · simp [gsFieldsWith, hv, List.filterMap_cons, ih]
      · simp at hv
        simp [gsFieldsWith, hv, List.filterMap_cons, ih]

/-- Claim C1: the specification says `detect_field_pattern` classifies a
boolean as `"boolean"` (boolean checked before the integer/number branch).
The code checks `isinstance(value, (int, float))` first, and in Python a
`bool` is an `int`, so both booleans are classified `"integer"`; the
dedicated boolean branch of the source is unreachable. -/
theorem boolean_pattern_is_integer :
    (detect_field_pattern (JSON.bool true)).type = "integer" ∧
    (detect_field_pattern (JSON.bool false)).type = "integer" ∧
    (detect_field_pattern (JSON.bool true)).type ≠ "boolean" := by
  refine ⟨rfl, rfl, by decide⟩

/-- Claim C2 (counterexample): for the object `\x7b"a": null\x7d` the schema has
empty `properties` and empty `required`, although `"a"` is a key of the
object — null-valued keys are skipped entirely by lines 447-451. -/
theorem object_schema_drops_null_key :
    generate_schema (JSON.obj [("a", JSON.null)]) false = Schema.sobj [] [] ∧
    "a" ∉ (generate_schema (JSON.obj [("a", JSON.null)]) false).requiredOf ∧
    "a" ∉ (generate_schema (JSON.obj [("a", JSON.null)]) false).propKeys := by
  refine ⟨rfl, by decide, by decide⟩

/-- Claim C2 (amended): for every JSON object, a key appears in the schema's
`properties` and in its `required` list iff its value in the object is
non-null; keys whose value is null appear in neither. -/
theorem object_schema_required_iff_nonnull (fields : List (String × JSON))
    (d : Bool) (k : String) :
    (k ∈ (generate_schema (JSON.obj fields) d).requiredOf ↔
      ∃ v, (k, v) ∈ fields ∧ v ≠ JSON.null) ∧
    (k ∈ (generate_schema (JSON.obj fields) d).propKeys ↔
      ∃ v, (k, v) ∈ fields ∧ v ≠ JSON.null) := by
  have hreq : (generate_schema (JSON.obj fields) d).requiredOf =
      fields.filterMap (fun kv => if kv.2.isNull then none else some kv.1) := rfl
  have hprops : (generate_schema (JSON.obj fields) d).propKeys =
      fields.filterMap (fun kv => if kv.2.isNull then none else some kv.1) :=
    gsFieldsWith_keys id fields d
  rw [hreq, hprops, and_self, List.mem_filterMap]
  constructor
  · rintro ⟨⟨k', v⟩, hmem, hkv⟩
    by_cases hv : v.isNull
    · simp [hv] at hkv
    · simp [hv] at hkv
      subst hkv
      exact ⟨v, hmem, (JSON.isNull_eq_false_iff v).mp (by simpa using hv)⟩
  · rintro ⟨v, hmem, hv⟩
    refine ⟨(k, v), hmem, ?_⟩
    simp [(JSON.isNull_eq_false_iff v).mpr hv]

/-- Claim C6: every scalar value (null included) flattens to exactly one row
with the single column `Value` holding the value itself. -/
theorem scalar_single_value_row (v : JSON) (h : v.isScalar = true) :
    json_to_dataframe v = [[("Value", v)]] := by
  cases v <;> first
    | rfl
    | simp [JSON.isScalar] at h

/-- Witness for `scalar_single_value_row` at the scalar `null`. -/
theorem scalar_single_value_row_witness :
    JSON.null.isScalar = true ∧
      json_to_dataframe JSON.null = [[("Value", JSON.null)]] :=
  ⟨rfl, scalar_single_value_row JSON.null rfl⟩

/-- Claim C8: the schema of an empty array is the explicit empty-array
marker node (`type` array, description `"Empty array"`, empty `items`),
never a merged object schema. -/
theorem empty_array_schema_marker (d : Bool) :
    generate_schema (JSON.arr []) d = Schema.sarr "Empty array" Schema.emptySchema ∧
    ∀ props req, (generate_schema (JSON.arr []) d).itemsOf ≠
      some (Schema.sobj props req) := by
  have h0 : generate_schema (JSON.arr []) d = Schema.sarr "Empty array" Schema.emptySchema := rfl
  refine ⟨h0, fun props req h => ?_⟩
  rw [h0] at h
  simp [Schema.itemsOf] at h

/-- Claim C4: flattening an object strictly increases the key count iff
nesting was found, and `json_to_dataframe` then emits the single flattened
row; when the flattened key count equals the direct key count, it emits the
object's direct keys unmodified.  (The `Nodup` hypothesis states that the
input is a Python dict, whose keys are unique.) -/
theorem object_row_flattening (fields : List (String × JSON))
    (hnd : (fields.map Prod.fst).Nodup) :
    (fields.length < (flatten fields).length →
      json_to_dataframe (JSON.obj fields) = [flatten fields]) ∧
    ((flatten fields).length = fields.length →
      json_to_dataframe (JSON.obj fields) = [fields]) := by
  constructor
  · intro h
    have hne : ¬ (flatten fields).length = fields.length := by omega
    simp [json_to_dataframe, hne]
  · intro h
    simp [json_to_dataframe, h]

/-- Witness for `object_row_flattening` at the nested object
`\x7b"a": \x7b"b": 1, "c": 2\x7d\x7d` (2 flattened keys from 1 direct key). -/
theorem object_row_flattening_witness :
    (([("a", JSON.obj [("b", JSON.int 1), ("c", JSON.int 2)])].map
        (Prod.fst (α := String) (β := JSON))).Nodup) ∧
    [("a", JSON.obj [("b", JSON.int 1), ("c", JSON.int 2)])].length <
      (flatten [("a", JSON.obj [("b", JSON.int 1), ("c", JSON.int 2)])]).length ∧
    json_to_dataframe (JSON.obj [("a", JSON.obj [("b", JSON.int 1), ("c", JSON.int 2)])]) =
      [flatten [("a", JSON.obj [("b", JSON.int 1), ("c", JSON.int 2)])]] :=
  ⟨by decide, by decide, (object_row_flattening _ (by decide)).1 (by decide)⟩

/-- Claim C5: a non-empty array all of whose elements are objects produces
exactly one row per element, the i-th row being the recursive flattening of
the i-th element. -/
theorem array_of_objects_rows (items : List JSON) (hne : items ≠ [])
    (hobj : items.all JSON.isObj = true) :
    json_to_dataframe (JSON.arr items) = items.map (fun it => flatten (fieldsOf it)) ∧
    (json_to_dataframe (JSON.arr items)).length = items.length := by
  have hE : items.isEmpty = false := by
    cases items with
    | nil => exact absurd rfl hne
    | cons a t => rfl
  have h : json_to_dataframe (JSON.arr items) = items.map (fun it => flatten (fieldsOf it)) := by
    simp [json_to_dataframe, hE, hobj]
  exact ⟨h, by rw [h, List.length_map]⟩

/-- Witness for `array_of_objects_rows` on a 2-element array of objects. -/
theorem array_of_objects_rows_witness :
    json_to_dataframe (JSON.arr [JSON.obj [("a", JSON.int 1)], JSON.obj [("b", JSON.int 2)]]) =
      [flatten [("a", JSON.int 1)], flatten [("b", JSON.int 2)]] ∧
    (json_to_dataframe
      (JSON.arr [JSON.obj [("a", JSON.int 1)], JSON.obj [("b", JSON.int 2)]])).length = 2 :=
  (array_of_objects_rows [JSON.obj [("a", JSON.int 1)], JSON.obj [("b", JSON.int 2)]]
    (by decide) (by decide))

/-- Claim C7 (counterexample): for the array `[null]` — not all of whose
elements are objects — the item schema is the generic
`\x7b"type": "string"\x7d` fallback, not
`detect_field_pattern(null) = \x7b"type": "null", ...\x7d` as claimed; and
`generate_schema([])` yields the empty-array marker with empty `items`, not
a `"string"`-typed item schema. -/
theorem nonobject_array_first_null_counterexample :
    (generate_schema (JSON.arr [JSON.null]) false).itemsOf =
        some (Schema.leaf { type := "string" } none) ∧
    (generate_schema (JSON.arr [JSON.null]) false).itemsOf ≠
        some (Schema.leaf (detect_field_pattern JSON.null) none) ∧
    (generate_schema (JSON.arr []) false).itemsOf ≠
        some (Schema.leaf { type := "string" } none) := by
  refine ⟨rfl, by decide, by decide⟩

/-- Claim C7 (amended): for a non-empty array not all of whose elements are
objects, the item schema is `detect_field_pattern` of the first element when
that element is non-null; when the first element is null the items fall back
to `\x7b"type": "string"\x7d`.  (An empty array never reaches this branch: it
yields the empty-array marker.) -/
theorem nonobject_array_item_schema (d : Bool) (v : JSON) (rest : List JSON)
    (hnotall : (v :: rest).all JSON.isObj = false) :
    (v ≠ JSON.null →
      generate_schema (JSON.arr (v :: rest)) d =
        Schema.sarr ("Array of " ++ toString (v :: rest).length ++ " items")
          (Schema.leaf (detect_field_pattern v) none)) ∧
    (v = JSON.null →
      generate_schema (JSON.arr (v :: rest)) d =
        Schema.sarr "Array of items" (Schema.leaf { type := "string" } none)) := by
  constructor
  · intro hv
    have hnull : v.isNull = false := (JSON.isNull_eq_false_iff v).mpr hv
    simp [generate_schema, generate_schemaWith, hnotall, hnull]
  · intro hv
    subst hv
    simp [generate_schema, generate_schemaWith, hnotall, JSON.isNull]

/-- Witness for `nonobject_array_item_schema` on the array `["x", 2]`. -/
theorem nonobject_array_item_schema_witness :
    ([JSON.str "x", JSON.int 2].all JSON.isObj = false) ∧
    generate_schema (JSON.arr [JSON.str "x", JSON.int 2]) false =
      Schema.sarr "Array of 2 items"
        (Schema.leaf (detect_field_pattern (JSON.str "x")) none) :=
  ⟨by decide,
    (nonobject_array_item_schema false (JSON.str "x") [JSON.int 2] (by decide)).1 (by decide)⟩

/-! ### Lemmas about the merged array schema -/

theorem mem_dedupFirst {a : String} : ∀ {l : List String}, a ∈ dedupFirst l ↔ a ∈ l
  | [] => by simp [dedupFirst]
  | b :: rest => by
      rw [dedupFirst]
      by_cases hab : a = b
      · subst hab
        simp
      · simp only [List.mem_cons, hab, false_or]
        rw [mem_dedupFirst (l := rest.filter (· ≠ b))]
        simp [hab]
termination_by l => l.length
decreasing_by
  exact Nat.lt_succ_of_le (List.length_filter_le _ _)

theorem dedupFirst_nodup : ∀ (l : List String), (dedupFirst l).Nodup
  | [] => by simp [dedupFirst]
  | b :: rest => by
      rw [dedupFirst]
      refine List.nodup_cons.mpr ⟨?_, dedupFirst_nodup (rest.filter (· ≠ b))⟩
      intro hmem
      have := mem_dedupFirst.mp hmem
      simp at this
termination_by l => l.length
decreasing_by
  exact Nat.lt_succ_of_le (List.length_filter_le _ _)

theorem lookupKey_isSome_mem {fs : List (String × JSON)} {k : String} {w : JSON}
    (h : lookupKey fs k = some w) : k ∈ fs.map Prod.fst := by
  induction fs with
  | nil => simp [lookupKey] at h
  | cons kv rest ih =>
      obtain ⟨k', v'⟩ := kv
      rw [lookupKey] at h
      by_cases hk : k' = k
      · subst hk
        simp
      · rw [if_neg hk] at h
        simpa using Or.inr (ih h)

theorem countP_isNull_add_not (l : List JSON) :
    l.countP (fun v => v.isNull) + l.countP (fun v => !v.isNull) = l.length := by
  induction l with
  | nil => rfl
  | cons a t ih =>
      rw [List.countP_cons, List.countP_cons, List.length_cons]
      cases ha : a.isNull <;> simp only [ha, Bool.not_false, Bool.not_true] <;>
        split_ifs <;> simp_all <;> omega

/-- `null_rate` as computed by `analyze_field_statistics` on a non-empty list
is the null count divided by the total count. -/
theorem nullRateOf_analyzeWith (ord : List String → List String)
    (values : List JSON) (h : values ≠ []) :
    nullRateOf (analyze_field_statisticsWith ord values) =
      ((values.countP (fun v => v.isNull) : ℕ) : ℚ) / (values.length : ℚ) := by
  have hE : values.isEmpty = false := by
    cases values with
    | nil => exact absurd rfl h
    | cons a t => rfl
  have hcount : values.length - (values.filter (fun v => !v.isNull)).length =
      values.countP (fun v => v.isNull) := by
    have h1 : values.countP (fun v => !v.isNull) =
        (values.filter (fun v => !v.isNull)).length :=
      List.countP_eq_length_filter _ _
    have h2v := countP_isNull_add_not values
    omega
  unfold analyze_field_statisticsWith
  rw [hE]
  simp only [Bool.false_eq_true, if_false]
  split_ifs <;> simp [nullRateOf, hcount]

/-- A `mergedProp` entry carries the key it was built from. -/
theorem mergedProp_fst {ord : List String → List String} {d : Bool}
    {items : List JSON} {k : String} {p : String × Schema}
    (h : mergedProp ord d items k = some p) : p.1 = k := by
  unfold mergedProp at h
  cases hs : sampleValue k items with
  | none => rw [hs] at h; exact absurd h (by simp)
  | some sample =>
      rw [hs] at h
      simp at h
      rw [← h]

/-- The merge branch of `generate_schema` written out. -/
theorem generate_schema_merge (items : List JSON) (d : Bool)
    (hne : items ≠ []) (hobj : items.all JSON.isObj = true) :
    generate_schema (JSON.arr items) d =
      Schema.sarr ("Array of " ++ toString items.length ++ " objects")
        (Schema.sobj ((allKeys items).filterMap (mergedProp id d items))
          ((allKeys items).filter (requiredPred id items))) := by
  have hE : items.isEmpty = false := by
    cases items with
    | nil => exact absurd rfl hne
    | cons a t => rfl
  simp [generate_schema, generate_schemaWith, hE, hobj]

/-- Claim C3: in a merged array schema, a field with at least one non-null
value is required iff its null rate (null or missing count over the total
element count) is strictly below one half. -/
theorem merged_required_iff_nullrate (items : List JSON) (d : Bool) (k : String)
    (hne : items ≠ []) (hobj : items.all JSON.isObj = true)
    (hsample : ∃ v ∈ fieldValues k items, v ≠ JSON.null) :
    k ∈ (((generate_schema (JSON.arr items) d).itemsOf).getD Schema.emptySchema).requiredOf ↔
      (((fieldValues k items).countP (fun v => v.isNull) : ℕ) : ℚ) / (items.length : ℚ)
        < 1 / 2 := by
  obtain ⟨v, hvmem, hvnn⟩ := hsample
  have hK : k ∈ allKeys items := by
    rw [fieldValues] at hvmem
    obtain ⟨it, hit, hv⟩ := List.mem_map.mp hvmem
    cases hlk : lookupKey (fieldsOf it) k with
    | none => rw [hlk] at hv; exact absurd hv.symm hvnn
    | some w =>
        rw [allKeys, mem_dedupFirst, List.mem_flatMap]
        exact ⟨it, hit, lookupKey_isSome_mem hlk⟩
  have hfind : (sampleValue k items).isSome := by
    rw [sampleValue, List.find?_isSome]
    exact ⟨v, hvmem, by simp [(JSON.isNull_eq_false_iff v).mpr hvnn]⟩
  have hfvne : fieldValues k items ≠ [] := List.ne_nil_of_mem hvmem
  have hlen : (fieldValues k items).length = items.length := by
    simp [fieldValues]
  rw [generate_schema_merge items d hne hobj]
  simp only [Schema.itemsOf, Option.getD_some, Schema.requiredOf]
  rw [List.mem_filter]
  rw [requiredPred, hfind]
  simp only [Bool.true_and, decide_eq_true_eq]
  rw [nullRateOf_analyzeWith id _ hfvne, hlen]
  simp [hK]

/-- Witness for `merged_required_iff_nullrate`: in a 10-element array where
field `X` is null in 3 elements the field is required (rate 0.3 < 0.5), and
where field `Y` is null in 6 of 10 it is not required (rate 0.6 ≥ 0.5). -/
theorem merged_required_iff_nullrate_witness :
    ("X" ∈ (((generate_schema
        (JSON.arr ((List.replicate 7 (JSON.obj [("X", JSON.int 1)])) ++
          List.replicate 3 (JSON.obj [("X", JSON.null)]))) false).itemsOf).getD
            Schema.emptySchema).requiredOf) ∧
    ("Y" ∉ (((generate_schema
        (JSON.arr ((List.replicate 4 (JSON.obj [("Y", JSON.int 1)])) ++
          List.replicate 6 (JSON.obj [("Y", JSON.null)]))) false).itemsOf).getD
            Schema.emptySchema).requiredOf) := by
  constructor
  · refine (merged_required_iff_nullrate _ false "X" (by decide) (by decide)
      ⟨JSON.int 1, by decide, by decide⟩).mpr ?_
    have : ((List.replicate 7 (JSON.obj [("X", JSON.int 1)])) ++
        List.replicate 3 (JSON.obj [("X", JSON.null)])).length = 10 := by decide
    rw [this]
    have : (fieldValues "X" ((List.replicate 7 (JSON.obj [("X", JSON.int 1)])) ++
        List.replicate 3 (JSON.obj [("X", JSON.null)]))).countP (fun v => v.isNull) = 3 := by
      decide
    rw [this]
    norm_num
  · intro hmem
    have h := (merged_required_iff_nullrate _ false "Y" (by decide) (by decide)
      ⟨JSON.int 1, by decide, by decide⟩).mp hmem
    have h10 : ((List.replicate 4 (JSON.obj [("Y", JSON.int 1)])) ++
        List.replicate 6 (JSON.obj [("Y", JSON.null)])).length = 10 := by decide
    rw [h10] at h
    have h6 : (fieldValues "Y" ((List.replicate 4 (JSON.obj [("Y", JSON.int 1)])) ++
        List.replicate 6 (JSON.obj [("Y", JSON.null)]))).countP (fun v => v.isNull) = 6 := by
      decide
    rw [h6] at h
    norm_num at h

/-- Claim C10: a key that occurs in some element of an array of objects but
is null or missing in every element is omitted from the merged schema
entirely: it appears neither in `properties` nor in `required`. -/
theorem merged_allnull_key_omitted (items : List JSON) (d : Bool) (k : String)
    (hne : items ≠ []) (hobj : items.all JSON.isObj = true)
    (hocc : ∃ it ∈ items, k ∈ (fieldsOf it).map Prod.fst)
    (hnull : ∀ v ∈ fieldValues k items, v = JSON.null) :
    k ∉ (((generate_schema (JSON.arr items) d).itemsOf).getD Schema.emptySchema).propKeys ∧
    k ∉ (((generate_schema (JSON.arr items) d).itemsOf).getD Schema.emptySchema).requiredOf := by
  have hsample : sampleValue k items = none := by
    rw [sampleValue, List.find?_eq_none]
    intro v hv
    simp [(JSON.isNull_iff v).mpr (hnull v hv)]
  rw [generate_schema_merge items d hne hobj]
  simp only [Schema.itemsOf, Option.getD_some, Schema.propKeys, Schema.requiredOf]
  constructor
  · intro hmem
    obtain ⟨p, hp, hpk⟩ := List.mem_map.mp hmem
    obtain ⟨k', hk', hpk'⟩ := List.mem_filterMap.mp hp
    have : k' = k := by rw [← mergedProp_fst hpk', hpk]
    subst this
    rw [mergedProp, hsample] at hpk'
    exact absurd hpk' (by simp)
  · intro hmem
    have hpred := (List.mem_filter.mp hmem).2
    rw [requiredPred, hsample] at hpred
    simp at hpred

/-- Witness for `merged_allnull_key_omitted`: key `"k"` occurs (with value
null) in the first of two objects and is absent from the second. -/
theorem merged_allnull_key_omitted_witness :
    "k" ∉ (((generate_schema (JSON.arr [JSON.obj [("k", JSON.null)], JSON.obj []])
        false).itemsOf).getD Schema.emptySchema).propKeys ∧
    "k" ∉ (((generate_schema (JSON.arr [JSON.obj [("k", JSON.null)], JSON.obj []])
        false).itemsOf).getD Schema.emptySchema).requiredOf :=
  merged_allnull_key_omitted [JSON.obj [("k", JSON.null)], JSON.obj []] false "k"
    (by decide) (by decide)
    ⟨JSON.obj [("k", JSON.null)], by decide, by decide⟩
    (by decide)

/-! ### Canonical ordering of schemas

`generate_schema` iterates two Python `set`s, whose iteration order is
unspecified (the `ord` parameter).  The claim that the schema is
order-independent is made precise by sorting, in the output, exactly the
three components fed from a set — the merged `properties` entries (by key),
the `required` list and the `types` list — and showing the canonicalised
output does not depend on `ord`. -/

def insertSorted (s : String) : List String → List String
  | [] => [s]
  | x :: xs => if s ≤ x then s :: x :: xs else x :: insertSorted s xs

def sortStrings (l : List String) : List String := l.foldr insertSorted []

theorem insertSorted_comm (a b : String) :
    ∀ l : List String, insertSorted a (insertSorted b l) = insertSorted b (insertSorted a l) := by
  intro l
  induction l with
  | nil =>
      by_cases hab : a ≤ b
      · by_cases hba : b ≤ a
        · have : a = b := le_antisymm hab hba
          subst this
          rfl
        · simp [insertSorted, hab, hba]
      · have hba : b ≤ a := (le_total a b).resolve_left hab
        simp [insertSorted, hab, hba]
  | cons x xs ih =>
      by_cases hax : a ≤ x
      · by_cases hbx : b ≤ x
        · by_cases hab : a ≤ b
          · by_cases hba : b ≤ a
            · have : a = b := le_antisymm hab hba
              subst this
              rfl
            · simp [insertSorted, hax, hbx, hab, hba]
          · have hba : b ≤ a := (le_total a b).resolve_left hab
            simp [insertSorted, hax, hbx, hab, hba]
        · have hba : ¬ b ≤ a := fun h => hbx (le_trans h hax)
          have hab : a ≤ b := (le_total b a).resolve_left hba
          simp [insertSorted, hax, hbx, hab, hba]
      · by_cases hbx : b ≤ x
        · have hab : ¬ a ≤ b := fun h => hax (le_trans h hbx)
          have hba : b ≤ a := (le_total a b).resolve_left hab
          simp [insertSorted, hax, hbx, hab, hba]
        · simp [insertSorted, hax, hbx, ih]

theorem sortStrings_perm_invariant {l1 l2 : List String} (h : l1.Perm l2) :
    sortStrings l1 = sortStrings l2 := by
  induction h with
  | nil => rfl
  | cons x _ ih => simp only [sortStrings, List.foldr_cons] at ih ⊢; rw [ih]
  | swap x y l => simp only [sortStrings, List.foldr_cons]; exact insertSorted_comm y x _
  | trans _ _ ih1 ih2 => exact ih1.trans ih2

def insertPair (p : String × Schema) : List (String × Schema) → List (String × Schema)
  | [] => [p]
  | x :: xs => if p.1 ≤ x.1 then p :: x :: xs else x :: insertPair p xs

def sortPairs (l : List (String × Schema)) : List (String × Schema) := l.foldr insertPair []

theorem insertPair_comm {p q : String × Schema} (hpq : p.1 ≠ q.1) :
    ∀ l, insertPair p (insertPair q l) = insertPair q (insertPair p l) := by
  intro l
  induction l with
  | nil =>
      by_cases hab : p.1 ≤ q.1
      · by_cases hba : q.1 ≤ p.1
        · exact absurd (le_antisymm hab hba) hpq
        · simp [insertPair, hab, hba]
      · have hba : q.1 ≤ p.1 := (le_total p.1 q.1).resolve_left hab
        simp [insertPair, hab, hba]
  | cons x xs ih =>
      by_cases hax : p.1 ≤ x.1
      · by_cases hbx : q.1 ≤ x.1
        · by_cases hab : p.1 ≤ q.1
          · by_cases hba : q.1 ≤ p.1
            · exact absurd (le_antisymm hab hba) hpq
            · simp [insertPair, hax, hbx, hab, hba]
          · have hba : q.1 ≤ p.1 := (le_total p.1 q.1).resolve_left hab
            simp [insertPair, hax, hbx, hab, hba]
        · have hba : ¬ q.1 ≤ p.1 := fun h => hbx (le_trans h hax)
          have hab : p.1 ≤ q.1 := (le_total q.1 p.1).resolve_left hba
          simp [insertPair, hax, hbx, hab, hba]
      · by_cases hbx : q.1 ≤ x.1
        · have hab : ¬ p.1 ≤ q.1 := fun h => hax (le_trans h hbx)
          have hba : q.1 ≤ p.1 := (le_total p.1 q.1).resolve_left hab
          simp [insertPair, hax, hbx, hab, hba]
        · simp [insertPair, hax, hbx, ih]

theorem sortPairs_perm_nodup {l1 l2 : List (String × Schema)} (h : l1.Perm l2) :
    (l1.map Prod.fst).Nodup → sortPairs l1 = sortPairs l2 := by
  induction h with
  | nil => intro _; rfl
  | cons x _ ih =>
      intro hnd
      simp only [sortPairs, List.foldr_cons] at ih ⊢
      rw [ih (by simpa using (List.nodup_cons.mp (by simpa using hnd)).2)]
  | swap x y l =>
      intro hnd
      have hxy : y.1 ≠ x.1 := by
        simp only [List.map_cons, List.nodup_cons, List.mem_cons, List.mem_map] at hnd
        exact fun h => hnd.1 (Or.inl h)
      simp only [sortPairs, List.foldr_cons]
      exact insertPair_comm hxy _
  | trans h1 _ ih1 ih2 =>
      intro hnd
      exact (ih1 hnd).trans (ih2 (((h1.map Prod.fst).nodup_iff).mp hnd))

/-- Sorts the `types` list of a statistics dict (the one component of
`analyze_field_statistics` fed from a `set`). -/
def canonStats : Option Stats → Option Stats
  | none => none
  | some s => some { s with types := s.types.map sortStrings }

mutual

/-- Sorts every set-fed component of a schema tree: merged `properties`
by key, `required` lists and `types` lists. -/
def canonicalize : Schema → Schema
  | .leaf info st => .leaf info (canonStats st)
  | .emptySchema => .emptySchema
  | .sobj props req => .sobj (sortPairs (canonProps props)) (sortStrings req)
  | .sarr desc items => .sarr desc (canonicalize items)

def canonProps : List (String × Schema) → List (String × Schema)
  | [] => []
  | (k, s) :: rest => (k, canonicalize s) :: canonProps rest

end

/-! ### Order-independence of `generate_schema` -/

theorem nullRateOf_analyzeWith_ord (ord1 ord2 : List String → List String)
    (values : List JSON) :
    nullRateOf (analyze_field_statisticsWith ord1 values) =
      nullRateOf (analyze_field_statisticsWith ord2 values) := by
  by_cases h : values = []
  · subst h
    rfl
  · rw [nullRateOf_analyzeWith ord1 values h, nullRateOf_analyzeWith ord2 values h]

theorem requiredPred_ord (ord1 ord2 : List String → List String)
    (items : List JSON) (k : String) :
    requiredPred ord1 items k = requiredPred ord2 items k := by
  unfold requiredPred
  rw [nullRateOf_analyzeWith_ord ord1 ord2]

theorem canonStats_analyzeWith (ord1 ord2 : List String → List String)
    (h1 : ∀ l, (ord1 l).Perm l) (h2 : ∀ l, (ord2 l).Perm l) (values : List JSON) :
    canonStats (analyze_field_statisticsWith ord1 values) =
      canonStats (analyze_field_statisticsWith ord2 values) := by
  have hT : ∀ T : List String, sortStrings (ord1 T) = sortStrings (ord2 T) :=
    fun T => sortStrings_perm_invariant ((h1 T).trans (h2 T).symm)
  unfold analyze_field_statisticsWith
  by_cases hE : values.isEmpty
  · simp [hE]
  · by_cases hN : (values.filter (fun v => !v.isNull)).isEmpty
    · simp [hE, hN, canonStats]
    · by_cases hStr : (values.filter (fun v => !v.isNull)).all JSON.isStr <;>
        by_cases hNum : (values.filter (fun v => !v.isNull)).all JSON.isNum <;>
          simp [hE, hN, hStr, hNum, canonStats, hT]

theorem canonProps_eq_map (l : List (String × Schema)) :
    canonProps l = l.map (fun p => (p.1, canonicalize p.2)) := by
  induction l with
  | nil => rfl
  | cons p rest ih =>
      obtain ⟨k, s⟩ := p
      rw [canonProps, ih]
      rfl

theorem filterMap_keyed_nodup {F : String → Option (String × Schema)}
    (hF : ∀ k p, F k = some p → p.1 = k) :
    ∀ {l : List String}, l.Nodup → ((l.filterMap F).map Prod.fst).Nodup := by
  intro l
  induction l with
  | nil => intro _; simp
  | cons a t ih =>
      intro hnd
      obtain ⟨ha, ht⟩ := List.nodup_cons.mp hnd
      rw [List.filterMap_cons]
      cases hFa : F a with
      | none => exact ih ht
      | some p =>
          rw [List.map_cons, List.nodup_cons]
          refine ⟨?_, ih ht⟩
          intro hmem
          obtain ⟨q, hq, hqfst⟩ := List.mem_map.mp hmem
          obtain ⟨k', hk', hFk'⟩ := List.mem_filterMap.mp hq
          rw [hF k' q hFk'] at hqfst
          rw [hF a p hFa] at hqfst
          exact ha (hqfst ▸ hk')

/-- The merge branch of `generate_schemaWith` written out. -/
theorem generate_schemaWith_merge (ord : List String → List String)
    (items : List JSON) (d : Bool)
    (hE : items.isEmpty = false) (hO : items.all JSON.isObj = true) :
    generate_schemaWith ord (JSON.arr items) d =
      Schema.sarr ("Array of " ++ toString items.length ++ " objects")
        (Schema.sobj ((ord (allKeys items)).filterMap (mergedProp ord d items))
          ((ord (allKeys items)).filter (requiredPred ord items))) := by
  simp [generate_schemaWith, hE, hO]

/-- The canonicalised merge branch does not depend on the set-iteration
order. -/
theorem merge_canon_eq (ord1 ord2 : List String → List String)
    (h1 : ∀ l, (ord1 l).Perm l) (h2 : ∀ l, (ord2 l).Perm l)
    (items : List JSON) (d : Bool)
    (hE : items.isEmpty = false) (hO : items.all JSON.isObj = true) :
    canonicalize (generate_schemaWith ord1 (JSON.arr items) d) =
      canonicalize (generate_schemaWith ord2 (JSON.arr items) d) := by
  rw [generate_schemaWith_merge ord1 items d hE hO,
    generate_schemaWith_merge ord2 items d hE hO]
  simp only [canonicalize]
  have hperm : (ord1 (allKeys items)).Perm (ord2 (allKeys items)) :=
    (h1 _).trans (h2 _).symm
  congr 1
  congr 1
  · -- properties, compared after canonicalising and sorting by key
    have hfun : (fun k => (mergedProp ord1 d items k).map (fun p => (p.1, canonicalize p.2))) =
        (fun k => (mergedProp ord2 d items k).map (fun p => (p.1, canonicalize p.2))) := by
      funext k
      unfold mergedProp
      cases hs : sampleValue k items with
      | none => rfl
      | some sample =>
          cases d with
          | false => rfl
          | true =>
              simp [canonicalize, canonStats_analyzeWith ord1 ord2 h1 h2]
    have hmap1 : canonProps ((ord1 (allKeys items)).filterMap (mergedProp ord1 d items)) =
        (ord1 (allKeys items)).filterMap
          (fun k => (mergedProp ord1 d items k).map (fun p => (p.1, canonicalize p.2))) := by
      rw [canonProps_eq_map, List.map_filterMap]
    have hmap2 : canonProps ((ord2 (allKeys items)).filterMap (mergedProp ord2 d items)) =
        (ord2 (allKeys items)).filterMap
          (fun k => (mergedProp ord2 d items k).map (fun p => (p.1, canonicalize p.2))) := by
      rw [canonProps_eq_map, List.map_filterMap]
    rw [hmap1, hmap2, hfun]
    have hFkey : ∀ k p, (mergedProp ord2 d items k).map
        (fun p => (p.1, canonicalize p.2)) = some p → p.1 = k := by
      intro k p hkp
      cases hq : mergedProp ord2 d items k with
      | none => rw [hq] at hkp; exact absurd hkp (by simp)
      | some q =>
          rw [hq] at hkp
          simp only [Option.map_some'] at hkp
          rw [← Option.some.inj hkp]
          show q.1 = k
          exact mergedProp_fst hq
    have hnd1 : (ord1 (allKeys items)).Nodup :=
      ((h1 (allKeys items)).nodup_iff).mpr (dedupFirst_nodup _)
    exact sortPairs_perm_nodup (hperm.filterMap _) (filterMap_keyed_nodup hFkey hnd1)
  · -- required list, compared after sorting
    have : requiredPred ord1 items = requiredPred ord2 items :=
      funext (requiredPred_ord ord1 ord2 items)
    rw [this]
    exact sortStrings_perm_invariant (hperm.filter _)

mutual

theorem gsCanonAux (ord1 ord2 : List String → List String)
    (h1 : ∀ l, (ord1 l).Perm l) (h2 : ∀ l, (ord2 l).Perm l) :
    ∀ (data : JSON) (d : Bool),
      canonicalize (generate_schemaWith ord1 data d) =
        canonicalize (generate_schemaWith ord2 data d)
  | .null, _ => rfl
  | .bool _, _ => rfl
  | .int _, _ => rfl
  | .float _, _ => rfl
  | .str _, _ => rfl
  | .arr items, d => by
      cases hE : items.isEmpty with
      | true => simp [generate_schemaWith, hE]
      | false =>
          cases hO : items.all JSON.isObj with
          | true => exact merge_canon_eq ord1 ord2 h1 h2 items d hE hO
          | false => simp [generate_schemaWith, hE, hO]
  | .obj fields, d => by
      simp only [generate_schemaWith, canonicalize]
      rw [gsFieldsCanonAux ord1 ord2 h1 h2 fields d]

theorem gsFieldsCanonAux (ord1 ord2 : List String → List String)
    (h1 : ∀ l, (ord1 l).Perm l) (h2 : ∀ l, (ord2 l).Perm l) :
    ∀ (fields : List (String × JSON)) (d : Bool),
      canonProps (gsFieldsWith ord1 fields d) = canonProps (gsFieldsWith ord2 fields d)
  | [], _ => rfl
  | (k, v) :: rest, d => by
      cases hv : v.isNull with
      | true =>
          simp only [gsFieldsWith, hv, if_true]
          exact gsFieldsCanonAux ord1 ord2 h1 h2 rest d
      | false =>
          simp only [gsFieldsWith, hv, Bool.false_eq_true, if_false, canonProps]
          rw [gsCanonAux ord1 ord2 h1 h2 v d, gsFieldsCanonAux ord1 ord2 h1 h2 rest d]

end

/-- Claim C9: the schema built by `generate_schema` is a deterministic
function of its input.  The only underdetermined ingredient in the source is
the iteration order of two Python `set`s; for any two admissible iteration
orders the resulting schemas agree after canonically ordering the three
set-fed components (merged properties, required list, types list), and the
`most_common` tie-break is first-encounter order, which is a function of the
input.  Hence two runs on the same input produce structurally identical
output. -/
theorem schema_inference_order_independent (ord1 ord2 : List String → List String)
    (h1 : ∀ l, (ord1 l).Perm l) (h2 : ∀ l, (ord2 l).Perm l)
    (data : JSON) (d : Bool) :
    canonicalize (generate_schemaWith ord1 data d) =
      canonicalize (generate_schemaWith ord2 data d) :=
  gsCanonAux ord1 ord2 h1 h2 data d

/-- Witness for `schema_inference_order_independent`: the identity order
versus the reversed order, on a detailed two-object merge. -/
theorem schema_inference_order_independent_witness :
    canonicalize (generate_schemaWith id
      (JSON.arr [JSON.obj [("a", JSON.int 1), ("b", JSON.str "x")],
        JSON.obj [("a", JSON.int 2)]]) true) =
    canonicalize (generate_schemaWith List.reverse
      (JSON.arr [JSON.obj [("a", JSON.int 1), ("b", JSON.str "x")],
        JSON.obj [("a", JSON.int 2)]]) true) :=
  schema_inference_order_independent id List.reverse
    (fun l => List.Perm.refl l) (fun l => l.reverse_perm)
    (JSON.arr [JSON.obj [("a", JSON.int 1), ("b", JSON.str "x")],
      JSON.obj [("a", JSON.int 2)]]) true
